import Mathlib

/-!
Verification development for the `iani` GWAS summary-statistics REST client
(`src/rust/src/lib.rs`).  The Rust source is shallowly embedded below:

* pure helpers (URL composition, query serialization, parameter-map
  construction) become Lean functions over `String` / `List Nat` (bytes);
* the HTTP transport is an explicit function argument: the reqwest client's
  behaviour on a given URL is a value `String -> Except String Response`,
  where `Except.error` models a transport-level failure of `send()` (reqwest
  `send` returns `Ok` for every delivered HTTP response, whatever its status
  code, and `Err` only on connection/transport failures);
* filesystem effects of the batch downloader are explicit state passing over
  a `World` record that also logs every HTTP request issued;
* JSON response bodies are modelled post-tokenization as a `Json` value;
  `reqwest::Response::json` / serde decoding becomes a total Lean decoder
  returning `Except`.
-/

/- ===================================================================
   Byte-level model of the `url` crate's application/x-www-form-urlencoded
   serializer, as invoked by `url.query_pairs_mut().append_pair(key, value)`
   in `GwasClient::build_url` (lib.rs:106-108).  Bytes are `Nat` values
   (meaningful when `< 256`).  The serializer leaves ASCII alphanumerics and
   `*`, `-`, `.`, `_` unchanged, turns space (0x20) into `+` (0x2B), and
   percent-encodes every other byte with uppercase hex digits.
   =================================================================== -/

/-- Bytes the form-urlencoded serializer passes through unescaped:
ASCII alphanumeric plus `*` (42), `-` (45), `.` (46), `_` (95). -/
def isFormSafe (b : Nat) : Bool :=
  (decide (48 ≤ b) && decide (b ≤ 57)) ||
  (decide (65 ≤ b) && decide (b ≤ 90)) ||
  (decide (97 ≤ b) && decide (b ≤ 122)) ||
  (b == 42) || (b == 45) || (b == 46) || (b == 95)

/-- Uppercase hex digit character code for a nibble value. -/
def hexDigit (n : Nat) : Nat :=
  if n < 10 then 48 + n else 55 + n

/-- Recognizer for hex digit bytes (`0-9`, `A-F`, `a-f`), as accepted by the
form-urlencoded parser when decoding a percent escape. -/
def isHexDigit (b : Nat) : Bool :=
  (decide (48 ≤ b) && decide (b ≤ 57)) ||
  (decide (65 ≤ b) && decide (b ≤ 70)) ||
  (decide (97 ≤ b) && decide (b ≤ 102))

/-- Numeric value of a hex digit byte. -/
def hexVal (b : Nat) : Nat :=
  if b ≤ 57 then b - 48 else if b ≤ 70 then b - 55 else b - 87

/-- Encoding of one byte by the form-urlencoded serializer. -/
def formEncodeByte (b : Nat) : List Nat :=
  if isFormSafe b then [b]
  else if b == 32 then [43]
  else [37, hexDigit (b / 16), hexDigit (b % 16)]

/-- Encoding of a byte string by the form-urlencoded serializer. -/
def formEncode : List Nat → List Nat
  | [] => []
  | b :: bs => formEncodeByte b ++ formEncode bs

/-- Standard form-urlencoded decoding of one component: `+` becomes space,
`%HH` (valid hex) becomes the escaped byte, anything else is literal. -/
def percentDecode : List Nat → List Nat
  | [] => []
  | 43 :: rest => 32 :: percentDecode rest
  | 37 :: h1 :: h2 :: rest2 =>
    if isHexDigit h1 && isHexDigit h2 then
      (hexVal h1 * 16 + hexVal h2) :: percentDecode rest2
    else 37 :: percentDecode (h1 :: h2 :: rest2)
  | 37 :: rest => 37 :: percentDecode rest
  | b :: rest => b :: percentDecode rest
termination_by l => l.length
decreasing_by all_goals (simp only [List.length_cons]; omega)

/- ===================================================================
   Query string assembly and parsing (`form_urlencoded` pair grammar):
   pairs separated by `&` (38), key and value separated by the first
   `=` (61).
   =================================================================== -/

/-- Splits a byte string at every `&` (38). -/
def splitAmp : List Nat → List (List Nat)
  | [] => [[]]
  | b :: rest =>
    if b = 38 then [] :: splitAmp rest
    else
      match splitAmp rest with
      | [] => [[b]]
      | p :: ps => (b :: p) :: ps

/-- Joins byte strings with `&` (38) separators. -/
def joinAmp : List (List Nat) → List Nat
  | [] => []
  | [p] => p
  | p :: ps => p ++ 38 :: joinAmp ps

/-- Splits a byte string at the first `=` (61); a missing `=` yields an
empty value, as in the form-urlencoded parser. -/
def splitFirstEq : List Nat → List Nat × List Nat
  | [] => ([], [])
  | b :: rest =>
    if b = 61 then ([], rest)
    else
      let kv := splitFirstEq rest
      (b :: kv.1, kv.2)

/-- Serialization of one `(key, value)` pair by `append_pair`. -/
def encPair (kv : List Nat × List Nat) : List Nat :=
  formEncode kv.1 ++ 61 :: formEncode kv.2

/-- Query string produced by the `append_pair` loop of
`GwasClient::build_url` over the parameter map's entries (in iteration
order). -/
def encodeQuery (params : List (List Nat × List Nat)) : List Nat :=
  joinAmp (params.map encPair)

/-- Standard decoding of one query chunk into a `(key, value)` pair. -/
def decodePair (p : List Nat) : List Nat × List Nat :=
  let kv := splitFirstEq p
  (percentDecode kv.1, percentDecode kv.2)

/-- Standard form-urlencoded parse of a whole query string (an absent or
empty query yields no pairs). -/
def decodeQuery (bs : List Nat) : List (List Nat × List Nat) :=
  if bs.isEmpty then [] else (splitAmp bs).map decodePair

/- ===================================================================
   URL composition (`GwasClient::build_url`, lib.rs:104-110).
   The composed request string is
   `format!("{}/{}", self.base_url, endpoint.trim_start_matches('/'))`;
   `Url::parse` keeps the path's slashes verbatim (the WHATWG parser does
   not collapse empty path segments), so the join-point behaviour is fully
   captured by the composed string.  `Url::parse` failure (`MalformedURL`)
   is outside this model: no claim below concerns an invalid base URL.
   =================================================================== -/

/-- Drops every leading `/` of a character list, as
`str::trim_start_matches('/')` does. -/
def dropSlashes : List Char → List Char
  | [] => []
  | c :: cs => if c = '/' then dropSlashes cs else c :: cs

/-- Model of `endpoint.trim_start_matches('/')`. -/
def trimLeadingSlashes (s : String) : String :=
  String.mk (dropSlashes s.toList)

/-- The string handed to `Url::parse` by `build_url` (lib.rs:105). -/
def composedUrl (base endpoint : String) : String :=
  base ++ "/" ++ trimLeadingSlashes endpoint

/-- Drops every trailing `/` of a string. -/
def stripTrailingSlashes (s : String) : String :=
  String.mk (dropSlashes s.toList.reverse).reverse

/-- Whether a string's last character is `/`. -/
def endsWithSlash (s : String) : Bool :=
  match s.toList.reverse with
  | [] => false
  | c :: _ => c == '/'

/-- Join of base and endpoint as the specification words it: `base` + `/` +
`endpoint` with duplicate slashes at the join point collapsed to one.  This
definition follows the spec, to be compared with `composedUrl`, which is
translated from the source. -/
def specJoinUrl (base endpoint : String) : String :=
  stripTrailingSlashes base ++ "/" ++ trimLeadingSlashes endpoint

/-- UTF-8 encoding of one character (the byte view of a Rust `&str`). -/
def utf8Encode (c : Char) : List Nat :=
  let n := c.toNat
  if n < 128 then [n]
  else if n < 2048 then [192 + n / 64, 128 + n % 64]
  else if n < 65536 then [224 + n / 4096, 128 + n / 64 % 64, 128 + n % 64]
  else [240 + n / 262144, 128 + n / 4096 % 64, 128 + n / 64 % 64, 128 + n % 64]

/-- UTF-8 bytes of a string. -/
def strBytes (s : String) : List Nat :=
  (s.toList.map utf8Encode).flatten

/-- Form-urlencoded encoding of a string component (`append_pair` applies
the serializer to the UTF-8 bytes of key and value). -/
def formEncodeStr (s : String) : String :=
  String.mk ((formEncode (strBytes s)).map Char.ofNat)

/-- Query string appended by the `append_pair` loop, string view. -/
def encodeQueryStr (params : List (String × String)) : String :=
  String.mk ((encodeQuery (params.map fun kv => (strBytes kv.1, strBytes kv.2))).map Char.ofNat)

/-- Model of `GwasClient::build_url` (lib.rs:104-110): compose base and
endpoint, then append each parameter as a query pair.  With no parameters
the `for` loop body never runs and the parsed URL is returned unchanged. -/
def build_url (base endpoint : String) (params : List (String × String)) : String :=
  let u := composedUrl base endpoint
  match params with
  | [] => u
  | _ => u ++ "?" ++ encodeQueryStr params

/- ===================================================================
   JSON values and serde-style decoding.  Response bodies are modelled
   post-tokenization as `Json` values; `reqwest::Response::json::<T>()`
   becomes `decode* : Json -> Except String T`.  JSON numbers are modelled
   as exact rationals (no claim depends on f64 rounding).
   =================================================================== -/

inductive Json where
  | null : Json
  | bool (b : Bool) : Json
  | num (q : Rat) : Json
  | str (s : String) : Json
  | arr (xs : List Json) : Json
  | obj (fields : List (String × Json)) : Json

/-- First-match field lookup in a JSON object's field list. -/
def Json.lookupField (k : String) : List (String × Json) → Option Json
  | [] => none
  | kv :: rest => if kv.1 = k then some kv.2 else Json.lookupField k rest

/-- serde decoding of an `Option<String>` struct field: absent or `null`
is `None`, a JSON string is `Some`, anything else is a type error. -/
def decodeOptString (k : String) (fields : List (String × Json)) :
    Except String (Option String) :=
  match Json.lookupField k fields with
  | none => .ok none
  | some .null => .ok none
  | some (.str s) => .ok (some s)
  | some _ => .error ("invalid type for field " ++ k)

/-- serde decoding of an `Option<i32>` / `Option<i64>` struct field: the
number must be integral and fit in the given signed width. -/
def decodeOptInt (bits : Nat) (k : String) (fields : List (String × Json)) :
    Except String (Option Int) :=
  match Json.lookupField k fields with
  | none => .ok none
  | some .null => .ok none
  | some (.num q) =>
    if q.den = 1 ∧ -(2 ^ (bits - 1) : Int) ≤ q.num ∧ q.num < 2 ^ (bits - 1) then
      .ok (some q.num)
    else .error ("invalid number for field " ++ k)
  | some _ => .error ("invalid type for field " ++ k)

/-- serde decoding of an `Option<f64>` struct field (value kept exact). -/
def decodeOptNum (k : String) (fields : List (String × Json)) :
    Except String (Option Rat) :=
  match Json.lookupField k fields with
  | none => .ok none
  | some .null => .ok none
  | some (.num q) => .ok (some q)
  | some _ => .error ("invalid type for field " ++ k)

/-- serde decoding of an `Option<Vec<String>>` struct field. -/
def decodeOptStrList (k : String) (fields : List (String × Json)) :
    Except String (Option (List String)) :=
  match Json.lookupField k fields with
  | none => .ok none
  | some .null => .ok none
  | some (.arr xs) =>
    let rec strings : List Json → Except String (List String)
      | [] => .ok []
      | .str s :: rest => (strings rest).map (s :: ·)
      | _ => .error ("invalid element for field " ++ k)
    (strings xs).map some
  | some _ => .error ("invalid type for field " ++ k)

/-- serde decoding of an `Option<HashMap<String, serde_json::Value>>` field
(the opaque `_links` maps): any JSON object is accepted verbatim. -/
def decodeOptJsonMap (k : String) (fields : List (String × Json)) :
    Except String (Option (List (String × Json))) :=
  match Json.lookupField k fields with
  | none => .ok none
  | some .null => .ok none
  | some (.obj fs) => .ok (some fs)
  | some _ => .error ("invalid type for field " ++ k)

/-- Decoding each value of a JSON object with a fixed element decoder
(serde's `HashMap<String, T>` deserialization; the map is modelled as the
object's field list in order). -/
def decodeObjValues {T : Type} (d : Json → Except String T) :
    List (String × Json) → Except String (List (String × T))
  | [] => .ok []
  | (k, v) :: rest =>
    match d v with
    | .error e => .error e
    | .ok t => (decodeObjValues d rest).map ((k, t) :: ·)

/- ===================================================================
   Response-side entities (lib.rs:11-79).
   =================================================================== -/

structure Link where
  href : String

structure Association where
  variant_id : Option String
  chromosome : Option Int
  base_pair_location : Option Int
  study_accession : Option String
  trait_ids : Option (List String)
  p_value : Option Rat
  code : Option Int
  effect_allele : Option String
  other_allele : Option String
  effect_allele_frequency : Option Rat
  odds_ratio : Option Rat
  ci_lower : Option Rat
  ci_upper : Option Rat
  beta : Option Rat
  se : Option Rat
  links : Option (List (String × Json))

structure HalResponse (T : Type) where
  embedded : Option (List (String × T))
  links : Option (List (String × Json))

structure Chromosome where
  chromosome : String
  links : Option (List (String × Link))

/-- serde decoding of `Link` (a JSON object with a required `href` string;
unknown fields are ignored). -/
def decodeLink (j : Json) : Except String Link :=
  match j with
  | .obj fs =>
    match Json.lookupField "href" fs with
    | some (.str s) => .ok ⟨s⟩
    | _ => .error "invalid Link"
  | _ => .error "invalid Link"

/-- serde decoding of an `Option<HashMap<String, Link>>` field. -/
def decodeOptLinkMap (k : String) (fields : List (String × Json)) :
    Except String (Option (List (String × Link))) :=
  match Json.lookupField k fields with
  | none => .ok none
  | some .null => .ok none
  | some (.obj fs) => (decodeObjValues decodeLink fs).map some
  | some _ => .error ("invalid type for field " ++ k)

/-- serde decoding of `Association` (lib.rs:11-31); every field is
optional, `trait` is renamed to `trait_ids`, `_links` to `links`. -/
def decodeAssociation (j : Json) : Except String Association :=
  match j with
  | .obj fs => do
    let variant_id ← decodeOptString "variant_id" fs
    let chromosome ← decodeOptInt 32 "chromosome" fs
    let base_pair_location ← decodeOptInt 64 "base_pair_location" fs
    let study_accession ← decodeOptString "study_accession" fs
    let trait_ids ← decodeOptStrList "trait" fs
    let p_value ← decodeOptNum "p_value" fs
    let code ← decodeOptInt 32 "code" fs
    let effect_allele ← decodeOptString "effect_allele" fs
    let other_allele ← decodeOptString "other_allele" fs
    let effect_allele_frequency ← decodeOptNum "effect_allele_frequency" fs
    let odds_ratio ← decodeOptNum "odds_ratio" fs
    let ci_lower ← decodeOptNum "ci_lower" fs
    let ci_upper ← decodeOptNum "ci_upper" fs
    let beta ← decodeOptNum "beta" fs
    let se ← decodeOptNum "se" fs
    let links ← decodeOptJsonMap "_links" fs
    .ok ⟨variant_id, chromosome, base_pair_location, study_accession, trait_ids,
      p_value, code, effect_allele, other_allele, effect_allele_frequency,
      odds_ratio, ci_lower, ci_upper, beta, se, links⟩
  | _ => .error "invalid Association"

/-- serde decoding of `Chromosome` (lib.rs:46-51): required `chromosome`
string, optional `_links` map of `Link`. -/
def decodeChromosome (j : Json) : Except String Chromosome :=
  match j with
  | .obj fs =>
    match Json.lookupField "chromosome" fs with
    | some (.str s) => (decodeOptLinkMap "_links" fs).map (fun l => ⟨s, l⟩)
    | _ => .error "invalid Chromosome"
  | _ => .error "invalid Chromosome"

/-- serde decoding of `HalResponse<T>` (lib.rs:38-44): `_embedded` and
`_links` are independently optional; `_embedded` is a map whose values
decode as `T`. -/
def decodeHal {T : Type} (d : Json → Except String T) (j : Json) :
    Except String (HalResponse T) :=
  match j with
  | .obj fs => do
    let embedded ←
      match Json.lookupField "_embedded" fs with
      | none => pure (Option.none)
      | some .null => pure (Option.none)
      | some (.obj gs) => (decodeObjValues d gs).map some
      | some _ => Except.error "invalid type for field _embedded"
    let links ← decodeOptJsonMap "_links" fs
    .ok ⟨embedded, links⟩
  | _ => .error "invalid HalResponse"

/-- serde decoding of `HashMap<String, Association>` (the `T` used by the
association listings). -/
def decodeAssocMap (j : Json) : Except String (List (String × Association)) :=
  match j with
  | .obj fs => decodeObjValues decodeAssociation fs
  | _ => .error "invalid association map"

/- ===================================================================
   HTTP client model.  A reqwest `Client`'s observable behaviour is a pair
   of response functions, one per body view: `json` for the Resource Client
   operations (which parse the body), `bytes` for the file downloads (which
   stream it).  `Except.error e` models a transport failure of `send()`;
   every delivered HTTP response — any status code — is `Except.ok`.
   =================================================================== -/

structure JsonResponse where
  status : Nat
  contentType : Option String
  body : Json

structure ByteResponse where
  status : Nat
  body : List Nat

structure Client where
  json : String → Except String JsonResponse
  bytes : String → Except String ByteResponse

structure GwasClient where
  client : Client
  base_url : String

/-- Model of `GwasClient::new` (lib.rs:89-94): always `Ok`, with the fixed
default base URL.  The ambient network (`reqwest::Client::new()`) is the
explicit argument `c`. -/
def GwasClient.new (c : Client) : Except String GwasClient :=
  .ok ⟨c, "https://www.ebi.ac.uk/gwas/summary-statistics/api"⟩

/-- Model of `GwasClient::with_base_url` (lib.rs:96-101): always `Ok`. -/
def GwasClient.with_base_url (c : Client) (base_url : String) :
    Except String GwasClient :=
  .ok ⟨c, base_url⟩

/-- Model of `GwasClient::get_associations` (lib.rs:113-118): build the URL,
issue the GET, and decode the body as `HalResponse<HashMap<String,
Association>>` — the delivered response's status code and content-type are
never inspected. -/
def GwasClient.get_associations (g : GwasClient)
    (params : List (String × String)) :
    Except String (HalResponse (List (String × Association))) :=
  match g.client.json (build_url g.base_url "/associations" params) with
  | .error e => .error e
  | .ok r => decodeHal decodeAssocMap r.body

/-- Model of `GwasClient::get_chromosome` (lib.rs:138-144): build the URL
with no parameters, issue the GET, decode the bare `Chromosome` — the
delivered response's status code and content-type are never inspected. -/
def GwasClient.get_chromosome (g : GwasClient) (chromosome : String) :
    Except String Chromosome :=
  match g.client.json (build_url g.base_url ("/chromosomes/" ++ chromosome) []) with
  | .error e => .error e
  | .ok r => decodeChromosome r.body

/- ===================================================================
   Boundary-layer parameter maps.  The exported R functions build a
   `HashMap<String, String>` by a sequence of conditional inserts.  The map
   is modelled as an association list; `HashMap::insert` replaces any
   existing binding for the key.
   =================================================================== -/

/-- Model of `HashMap::insert` on an association list: bind `k` to `v`,
dropping any previous binding of `k`. -/
def hmInsert (k v : String) (m : List (String × String)) :
    List (String × String) :=
  (k, v) :: m.filter (fun kv => kv.1 ≠ k)

/-- Model of `if let Some(x) = arg { params.insert(key, render(x)); }`. -/
def optInsert {A : Type} (k : String) (render : A → String) (arg : Option A)
    (m : List (String × String)) : List (String × String) :=
  match arg with
  | none => m
  | some a => hmInsert k (render a) m

/-- Parameter map built by `gwas_get_associations` (lib.rs:315-320): inserts
for `start`, `size`, `reveal`, `p_lower`, `p_upper`, each only when the
corresponding argument is supplied. -/
def gwas_get_associations_params (start size : Option Int)
    (reveal p_lower p_upper : Option String) : List (String × String) :=
  optInsert "p_upper" id p_upper
    (optInsert "p_lower" id p_lower
      (optInsert "reveal" id reveal
        (optInsert "size" toString size
          (optInsert "start" toString start []))))

/-- Parameter map built by `gwas_get_chromosome_associations`
(lib.rs:428-437): inserts for `start`, `size`, `reveal`, `p_lower`,
`p_upper`, `bp_lower`, `bp_upper`, `study_accession`, `trait`, each only
when the corresponding argument is supplied. -/
def gwas_get_chromosome_associations_params (start size : Option Int)
    (reveal p_lower p_upper : Option String) (bp_lower bp_upper : Option Int)
    (study_accession trait_name : Option String) : List (String × String) :=
  optInsert "trait" id trait_name
    (optInsert "study_accession" id study_accession
      (optInsert "bp_upper" toString bp_upper
        (optInsert "bp_lower" toString bp_lower
          (optInsert "p_upper" id p_upper
            (optInsert "p_lower" id p_lower
              (optInsert "reveal" id reveal
                (optInsert "size" toString size
                  (optInsert "start" toString start []))))))))

/- ===================================================================
   Filesystem and effect model for the Batch Downloader.  Directories and
   files live in a `World` record threaded through the computation; the
   `World` also logs every HTTP request that `send()` issues.  The rayon
   `par_iter().zip(...).map(...).collect()` pipeline collects results in
   input order; since each task's effects touch only its own destination
   path and the request log, the sequential fold below is the
   linearization of any schedule of the worker pool.
   =================================================================== -/

structure Fs where
  dirs : List String
  files : List (String × List Nat)

structure World where
  fs : Fs
  requests : List String

/-- Model of `Path::new(p).parent()` for slash-normalized paths (no
trailing slash, no duplicate separators): the longest proper prefix before
the last `/`; a bare file name has parent `""`; `""` and `"/"` have none. -/
def pathParent (p : String) : Option String :=
  let cs := p.toList
  if cs = [] then none
  else if cs = ['/'] then none
  else
    let seg := (cs.reverse.takeWhile (fun c => c ≠ '/')).length
    if seg = cs.length then some ""
    else
      let kept := cs.take (cs.length - seg - 1)
      if kept = [] then some "/" else some (String.mk kept)

/-- Model of `fs::create_dir_all(parent)`: a no-op for the empty path (as
in Rust's std), otherwise the directory is recorded as existing.  The
ancestor chain is collapsed to the directory itself; no claim
distinguishes an ancestor from the immediate parent. -/
def createDirAll (p : String) (fs : Fs) : Fs :=
  if p = "" then fs else { fs with dirs := p :: fs.dirs }

/-- Model of `fs::File::create(path)` followed by `io::copy`: create or
truncate the file at `path` and write `content` to it. -/
def writeFile (path : String) (content : List Nat) (fs : Fs) : Fs :=
  { fs with files := (path, content) :: fs.files.filter (fun kv => kv.1 ≠ path) }

/-- Model of `GwasClient::download_summary_stats_file` (lib.rs:271-281):
issue the GET (the request is logged; `send()?` propagates only transport
errors — a delivered response of any status code is `Ok`), create the
missing parent directory of `output_path`, create/truncate the file, write
the delivered body to it, and return `Ok(output_path)`. -/
def GwasClient.download_summary_stats_file (g : GwasClient)
    (file_url output_path : String) (w : World) :
    Except String String × World :=
  let w1 : World := { w with requests := w.requests ++ [file_url] }
  match g.client.bytes file_url with
  | .error e => (.error e, w1)
  | .ok resp =>
    let w2 : World :=
      match pathParent output_path with
      | none => w1
      | some parent => { w1 with fs := createDirAll parent w1.fs }
    let w3 : World := { w2 with fs := writeFile output_path resp.body w2.fs }
    (.ok output_path, w3)

/-- One task of the batch (the closure at lib.rs:751-756): a success is
rendered `"Downloaded: {path}"`, a failure `"Failed to download {url}:
{cause}"`. -/
def downloadTask (g : GwasClient) (url path : String) (w : World) :
    Except String String × World :=
  match g.download_summary_stats_file url path w with
  | (.ok p, w2) => (.ok ("Downloaded: " ++ p), w2)
  | (.error e, w2) => (.error ("Failed to download " ++ url ++ ": " ++ e), w2)

/-- All tasks of the batch, in input order (the linearization of the rayon
pipeline at lib.rs:748-757). -/
def runTasks (g : GwasClient) :
    List (String × String) → World → List (Except String String) × World
  | [], w => ([], w)
  | (url, path) :: rest, w =>
    let rw := downloadTask g url path w
    let rws := runTasks g rest rw.2
    (rw.1 :: rws.1, rws.2)

/-- Count of `Ok` results (the `success_count` accumulation,
lib.rs:760-768). -/
def countOk (results : List (Except String String)) : Nat :=
  results.countP (fun r => match r with | .ok _ => true | .error _ => false)

/-- The collected failure messages (the `error_messages` accumulation,
lib.rs:760-768). -/
def errorMessages (results : List (Except String String)) : List String :=
  results.filterMap (fun r => match r with | .ok _ => none | .error e => some e)

/-- Joins strings with newlines (`error_messages.join("\n")`). -/
def joinLines : List String → String
  | [] => ""
  | [s] => s
  | s :: rest => s ++ "\n" ++ joinLines rest

/-- Model of the exported `gwas_download_summary_stats_files`
(lib.rs:734-774).  The two input vectors must have equal length, else the
function returns the length-mismatch error before any work.
`max_concurrent` is bound (defaulted to 4) and never used afterwards: the
rayon pipeline runs on the global thread pool. -/
def gwas_download_summary_stats_files (net : Client)
    (file_urls output_paths : List String) (max_concurrent : Option Nat)
    (w : World) : String × World :=
  if file_urls.length ≠ output_paths.length then
    ("Error: file_urls and output_paths must have the same length.", w)
  else
    let _max_concurrent := max_concurrent.getD 4
    match GwasClient.new net with
    | .error e => ("Error creating client: " ++ e, w)
    | .ok client =>
      let rws := runTasks client (file_urls.zip output_paths) w
      let success_count := countOk rws.1
      let error_messages := errorMessages rws.1
      ("Downloaded " ++ toString success_count ++ " of "
          ++ toString file_urls.length ++ " files successfully.\n"
          ++ joinLines error_messages,
        rws.2)

/-- Model of the exported `gwas_client_new` (lib.rs:288-293). -/
def gwas_client_new (c : Client) : String :=
  match GwasClient.new c with
  | .ok _ => "GWAS client created successfully"
  | .error e => "Error creating GWAS client: " ++ e

/-- Results vector and final world of the batch pipeline (lib.rs:748-757)
run with the client that `GwasClient::new()` constructs. -/
def batchOutcome (net : Client) (file_urls output_paths : List String)
    (w : World) : List (Except String String) × World :=
  runTasks ⟨net, "https://www.ebi.ac.uk/gwas/summary-statistics/api"⟩
    (file_urls.zip output_paths) w

/-- An empty filesystem with an empty request log, used as the starting
world of concrete scenarios. -/
def emptyWorld : World := ⟨⟨[], []⟩, []⟩

/-- A network where `http://ok` delivers a 200 response with body `[1]` and
every other URL fails at the transport level. -/
def sampleNet : Client :=
  ⟨fun _ => Except.error "t",
    fun u => if u = "http://ok" then Except.ok ⟨200, [1]⟩
      else Except.error "connection refused"⟩

/-- A client whose every JSON request is answered with status 404,
content-type `text/html`, and body `{}`. -/
def sample404Client : GwasClient :=
  ⟨⟨fun _ => Except.ok ⟨404, some "text/html", Json.obj []⟩,
    fun _ => Except.error "x"⟩, "http://h"⟩

/-- A client whose every byte request delivers status 200 with body
`[7, 8]`. -/
def sampleDownloadClient : GwasClient :=
  ⟨⟨fun _ => Except.error "x", fun _ => Except.ok ⟨200, [7, 8]⟩⟩, "b"⟩

theorem hexDigit_isHex : ∀ n, n < 16 → isHexDigit (hexDigit n) = true := by decide

theorem hexVal_hexDigit : ∀ n, n < 16 → hexVal (hexDigit n) = n := by decide

theorem isFormSafe_ne_special (b : Nat) (h : isFormSafe b = true) :
    b ≠ 43 ∧ b ≠ 37 := by
  constructor <;> intro hb <;> rw [hb] at h <;> exact absurd h (by decide)

theorem percentDecode_cons_other (b : Nat) (rest : List Nat)
    (h43 : b ≠ 43) (h37 : b ≠ 37) :
    percentDecode (b :: rest) = b :: percentDecode rest := by
  simp [percentDecode, h43, h37]

theorem percentDecode_encodeByte (b : Nat) (hb : b < 256) (rest : List Nat) :
    percentDecode (formEncodeByte b ++ rest) = b :: percentDecode rest := by
  by_cases hs : isFormSafe b = true
  · obtain ⟨h43, h37⟩ := isFormSafe_ne_special b hs
    have henc : formEncodeByte b = [b] := by
      simp [formEncodeByte, hs]
    rw [henc, List.cons_append, List.nil_append,
      percentDecode_cons_other b rest h43 h37]
  · have hs' : isFormSafe b = false := by
      cases hfs : isFormSafe b
      · rfl
      · exact absurd hfs hs
    by_cases h32 : b = 32
    · subst h32
      have henc : formEncodeByte 32 = [43] := by decide
      rw [henc, List.cons_append, List.nil_append]
      simp [percentDecode]
    · have h32' : (b == 32) = false := by
        simp [h32]
      have e1 : isHexDigit (hexDigit (b / 16)) = true := hexDigit_isHex _ (by omega)
      have e2 : isHexDigit (hexDigit (b % 16)) = true := hexDigit_isHex _ (by omega)
      have v1 : hexVal (hexDigit (b / 16)) = b / 16 := hexVal_hexDigit _ (by omega)
      have v2 : hexVal (hexDigit (b % 16)) = b % 16 := hexVal_hexDigit _ (by omega)
      have henc : formEncodeByte b = [37, hexDigit (b / 16), hexDigit (b % 16)] := by
        simp [formEncodeByte, hs', h32']
      rw [henc]
      have hdec : percentDecode (37 :: hexDigit (b / 16) :: hexDigit (b % 16) :: rest)
          = (hexVal (hexDigit (b / 16)) * 16 + hexVal (hexDigit (b % 16)))
            :: percentDecode rest := by
        simp [percentDecode, e1, e2]
      simp only [List.cons_append, List.nil_append]
      rw [hdec, v1, v2]
      have hb' : b / 16 * 16 + b % 16 = b := by omega
      rw [hb']

theorem percentDecode_formEncode_append (bs rest : List Nat)
    (h : ∀ b ∈ bs, b < 256) :
    percentDecode (formEncode bs ++ rest) = bs ++ percentDecode rest := by
  induction bs with
  | nil => simp [formEncode]
  | cons b bs ih =>
    have hb : b < 256 := h b (List.mem_cons_self b bs)
    have hbs : ∀ x ∈ bs, x < 256 := fun x hx => h x (List.mem_cons_of_mem b hx)
    simp only [formEncode, List.append_assoc]
    rw [percentDecode_encodeByte b hb, ih hbs]
    rfl

theorem percentDecode_formEncode (bs : List Nat) (h : ∀ b ∈ bs, b < 256) :
    percentDecode (formEncode bs) = bs := by
  have hnil : percentDecode [] = [] := by
    simp [percentDecode]
  have := percentDecode_formEncode_append bs [] h
  rw [List.append_nil, hnil, List.append_nil] at this
  exact this

set_option maxRecDepth 8192 in
theorem formEncodeByte_no_sep :
    ∀ b, b < 256 → ∀ x ∈ formEncodeByte b, x ≠ 38 ∧ x ≠ 61 := by decide

theorem formEncode_no_sep (bs : List Nat) (h : ∀ b ∈ bs, b < 256) :
    ∀ x ∈ formEncode bs, x ≠ 38 ∧ x ≠ 61 := by
  induction bs with
  | nil => simp [formEncode]
  | cons b bs ih =>
    intro x hx
    simp only [formEncode, List.mem_append] at hx
    rcases hx with hx | hx
    · exact formEncodeByte_no_sep b (h b (List.mem_cons_self b bs)) x hx
    · exact ih (fun y hy => h y (List.mem_cons_of_mem b hy)) x hx

theorem splitAmp_no_amp (p : List Nat) (h : ∀ x ∈ p, x ≠ 38) :
    splitAmp p = [p] := by
  induction p with
  | nil => rfl
  | cons b rest ih =>
    have hb : b ≠ 38 := h b (List.mem_cons_self b rest)
    have hrest := ih (fun x hx => h x (List.mem_cons_of_mem b hx))
    simp [splitAmp, hb, hrest]

theorem splitAmp_append (p rest : List Nat) (h : ∀ x ∈ p, x ≠ 38) :
    splitAmp (p ++ 38 :: rest) = p :: splitAmp rest := by
  induction p with
  | nil => simp [splitAmp]
  | cons b p ih =>
    have hb : b ≠ 38 := h b (List.mem_cons_self b p)
    have hp := ih (fun x hx => h x (List.mem_cons_of_mem b hx))
    rw [List.cons_append, splitAmp, if_neg hb, hp]

theorem splitAmp_joinAmp (parts : List (List Nat))
    (h : ∀ p ∈ parts, ∀ x ∈ p, x ≠ 38) (hne : parts ≠ []) :
    splitAmp (joinAmp parts) = parts := by
  induction parts with
  | nil => exact absurd rfl hne
  | cons p ps ih =>
    cases ps with
    | nil =>
      simp only [joinAmp]
      exact splitAmp_no_amp p (h p (List.mem_cons_self p []))
    | cons q qs =>
      have hp : ∀ x ∈ p, x ≠ 38 := h p (List.mem_cons_self p (q :: qs))
      have hrest : ∀ r ∈ q :: qs, ∀ x ∈ r, x ≠ 38 :=
        fun r hr => h r (List.mem_cons_of_mem p hr)
      have := ih hrest (by simp)
      simp only [joinAmp]
      rw [splitAmp_append p _ hp, this]

theorem splitFirstEq_append (k v : List Nat) (h : ∀ x ∈ k, x ≠ 61) :
    splitFirstEq (k ++ 61 :: v) = (k, v) := by
  induction k with
  | nil => simp [splitFirstEq]
  | cons b k ih =>
    have hb : b ≠ 61 := h b (List.mem_cons_self b k)
    have hk := ih (fun x hx => h x (List.mem_cons_of_mem b hx))
    simp [splitFirstEq, hb, hk]

/-- Bytes of a serialized pair never include the separators `&` or `=`
except the single key/value `=` written by `append_pair`. -/
theorem encPair_no_amp (kv : List Nat × List Nat)
    (h1 : ∀ b ∈ kv.1, b < 256) (h2 : ∀ b ∈ kv.2, b < 256) :
    ∀ x ∈ encPair kv, x ≠ 38 := by
  intro x hx
  simp only [encPair, List.mem_append, List.mem_cons] at hx
  rcases hx with hx | hx | hx
  · exact (formEncode_no_sep kv.1 h1 x hx).1
  · omega
  · exact (formEncode_no_sep kv.2 h2 x hx).1

theorem decodePair_encPair (kv : List Nat × List Nat)
    (h1 : ∀ b ∈ kv.1, b < 256) (h2 : ∀ b ∈ kv.2, b < 256) :
    decodePair (encPair kv) = kv := by
  have hk : ∀ x ∈ formEncode kv.1, x ≠ 61 :=
    fun x hx => (formEncode_no_sep kv.1 h1 x hx).2
  simp only [decodePair, encPair]
  rw [splitFirstEq_append _ _ hk]
  simp only [percentDecode_formEncode kv.1 h1, percentDecode_formEncode kv.2 h2]

/- ===================================================================
   Supporting lemmas.
   =================================================================== -/

theorem stringMk_toList (s : String) : String.mk s.toList = s := by
  cases s
  rfl

theorem stripTrailingSlashes_eq_self (s : String)
    (h : endsWithSlash s = false) : stripTrailingSlashes s = s := by
  unfold stripTrailingSlashes
  have hds : dropSlashes s.toList.reverse = s.toList.reverse := by
    unfold endsWithSlash at h
    cases hrev : s.toList.reverse with
    | nil => rfl
    | cons c cs =>
      rw [hrev] at h
      have hc : c ≠ '/' := by simpa using h
      simp [dropSlashes, hc]
  rw [hds, List.reverse_reverse, stringMk_toList]

theorem encPair_mem_eq (kv : List Nat × List Nat) : 61 ∈ encPair kv := by
  simp [encPair]

theorem map_decodePair_encPair (params : List (List Nat × List Nat))
    (h : ∀ kv ∈ params, (∀ b ∈ kv.1, b < 256) ∧ (∀ b ∈ kv.2, b < 256)) :
    (params.map encPair).map decodePair = params := by
  induction params with
  | nil => rfl
  | cons kv rest ih =>
    have hkv := h kv (List.mem_cons_self kv rest)
    have hrest : ∀ x ∈ rest, (∀ b ∈ x.1, b < 256) ∧ (∀ b ∈ x.2, b < 256) :=
      fun x hx => h x (List.mem_cons_of_mem kv hx)
    simp only [List.map_cons]
    rw [decodePair_encPair kv hkv.1 hkv.2, ih hrest]

theorem countOk_add_errorMessages (results : List (Except String String)) :
    countOk results + (errorMessages results).length = results.length := by
  induction results with
  | nil => rfl
  | cons r rs ih =>
    cases r with
    | ok s =>
      have h1 : countOk (Except.ok s :: rs) = countOk rs + 1 := by
        simp [countOk, List.countP_cons]
      have h2 : errorMessages (Except.ok s :: rs) = errorMessages rs := by
        simp [errorMessages, List.filterMap_cons]
      rw [h1, h2, List.length_cons]
      omega
    | error e =>
      have h1 : countOk (Except.error e :: rs) = countOk rs := by
        simp [countOk, List.countP_cons]
      have h2 : errorMessages (Except.error e :: rs) = e :: errorMessages rs := by
        simp [errorMessages, List.filterMap_cons]
      rw [h1, h2, List.length_cons, List.length_cons]
      omega

theorem downloadTask_requests (g : GwasClient) (url path : String) (w : World) :
    (downloadTask g url path w).2.requests = w.requests ++ [url] := by
  unfold downloadTask GwasClient.download_summary_stats_file
  cases g.client.bytes url with
  | error e => rfl
  | ok resp =>
    cases pathParent path with
    | none => rfl
    | some parent => rfl

theorem runTasks_length (g : GwasClient) (tasks : List (String × String)) :
    ∀ w, (runTasks g tasks w).1.length = tasks.length := by
  induction tasks with
  | nil => intro w; rfl
  | cons t rest ih =>
    intro w
    obtain ⟨url, path⟩ := t
    simp only [runTasks, List.length_cons]
    rw [ih]

theorem runTasks_requests (g : GwasClient) (tasks : List (String × String)) :
    ∀ w, (runTasks g tasks w).2.requests = w.requests ++ tasks.map Prod.fst := by
  induction tasks with
  | nil => intro w; simp [runTasks]
  | cons t rest ih =>
    intro w
    obtain ⟨url, path⟩ := t
    simp only [runTasks, List.map_cons]
    rw [ih, downloadTask_requests]
    simp

/- ===================================================================
   Claim theorems.
   =================================================================== -/

/-- Claim C8: every entry of the parameter map appears in the built URL as a
percent-encoded query pair, and standard form-urlencoded decoding of the
query string built by the `append_pair` loop of `GwasClient::build_url`
yields back exactly the original parameter map (byte-level round trip over
the map's entries). -/
theorem buildUrl_query_roundtrip (params : List (List Nat × List Nat))
    (h : ∀ kv ∈ params, (∀ b ∈ kv.1, b < 256) ∧ (∀ b ∈ kv.2, b < 256)) :
    decodeQuery (encodeQuery params) = params := by
  cases hp : params with
  | nil => rfl
  | cons kv rest =>
    subst hp
    have hparts : ∀ p ∈ (kv :: rest).map encPair, ∀ x ∈ p, x ≠ 38 := by
      intro p hp x hx
      obtain ⟨kv2, hkv2, rfl⟩ := List.mem_map.mp hp
      have := h kv2 hkv2
      exact encPair_no_amp kv2 this.1 this.2 x hx
    have hne : (kv :: rest).map encPair ≠ [] := by simp
    have hjoin : (joinAmp ((kv :: rest).map encPair)).isEmpty = false := by
      cases rest with
      | nil =>
        simp only [List.map_cons, List.map_nil, joinAmp]
        have h61 : 61 ∈ encPair kv := encPair_mem_eq kv
        cases hk : encPair kv with
        | nil => rw [hk] at h61; simp at h61
        | cons a as => simp
      | cons kv2 rest2 =>
        simp only [List.map_cons, joinAmp]
        cases hk : encPair kv <;> simp
    unfold decodeQuery encodeQuery
    rw [hjoin]
    simp only [Bool.false_eq_true, if_false]
    rw [splitAmp_joinAmp _ hparts hne]
    exact map_decodePair_encPair _ h

/-- Claim C8 witness: round trip at a concrete parameter map whose value
needs escaping (space, `&`, `=`, a percent sign). -/
theorem buildUrl_query_roundtrip_witness :
    (∀ kv ∈ [([107, 101, 121], [97, 32, 98, 38, 99, 61, 37]),
             ([113], [118, 42, 95])],
      (∀ b ∈ kv.1, b < 256) ∧ (∀ b ∈ kv.2, b < 256)) ∧
    decodeQuery (encodeQuery
        [([107, 101, 121], [97, 32, 98, 38, 99, 61, 37]),
         ([113], [118, 42, 95])])
      = [([107, 101, 121], [97, 32, 98, 38, 99, 61, 37]),
         ([113], [118, 42, 95])] :=
  ⟨by decide, buildUrl_query_roundtrip _ (by decide)⟩

/-- Claim C7 counterexample: the URL builder does not collapse a duplicate
slash arising from a trailing slash on the base: with base
`https://example.com/api/` and endpoint `/associations` the composed URL
keeps `//` at the join point, differing from the spec's collapsed join. -/
theorem composedUrl_trailing_slash_counterexample :
    composedUrl "https://example.com/api/" "/associations"
        = "https://example.com/api//associations"
    ∧ specJoinUrl "https://example.com/api/" "/associations"
        = "https://example.com/api/associations"
    ∧ composedUrl "https://example.com/api/" "/associations"
        ≠ specJoinUrl "https://example.com/api/" "/associations" := by
  refine ⟨by decide, by decide, by decide⟩

/-- Claim C7 (amended): leading slashes of the endpoint are always trimmed,
so whenever the base URL does not itself end in `/` — in particular for the
default base — the endpoint is joined to the base with exactly one
separating slash; a trailing slash on a caller-supplied base is kept
verbatim and yields a duplicate slash. -/
theorem composedUrl_single_slash (base endpoint : String)
    (h : endsWithSlash base = false) :
    composedUrl base endpoint = specJoinUrl base endpoint := by
  unfold composedUrl specJoinUrl
  rw [stripTrailingSlashes_eq_self base h]

/-- Claim C7 witness: the default base joined with `/associations` (and with
a doubly slashed endpoint) has exactly one separating slash. -/
theorem composedUrl_single_slash_witness :
    endsWithSlash "https://www.ebi.ac.uk/gwas/summary-statistics/api" = false
    ∧ composedUrl "https://www.ebi.ac.uk/gwas/summary-statistics/api" "//associations"
        = specJoinUrl "https://www.ebi.ac.uk/gwas/summary-statistics/api" "//associations" :=
  ⟨by decide, composedUrl_single_slash _ _ (by decide)⟩

theorem lookup_cons_ne (k k1 v1 : String) (rest : List (String × String))
    (hkk : (k == k1) = false) :
    List.lookup k ((k1, v1) :: rest) = List.lookup k rest := by
  simp [List.lookup, hkk]

theorem lookup_filter_of_keeps_key (k : String) (p : String × String → Bool)
    (m : List (String × String)) (hp : ∀ v, p (k, v) = true) :
    (m.filter p).lookup k = m.lookup k := by
  induction m with
  | nil => rfl
  | cons kv rest ih =>
    obtain ⟨k1, v1⟩ := kv
    cases hbk : (k == k1) with
    | true =>
      have hk1 : k1 = k := (eq_of_beq hbk).symm
      subst hk1
      rw [List.filter_cons, hp v1]
      simp [List.lookup, hbk]
    | false =>
      rw [List.filter_cons]
      cases hpv : p (k1, v1) with
      | true =>
        simp only [if_true]
        rw [lookup_cons_ne k k1 v1 _ hbk, ih, lookup_cons_ne k k1 v1 rest hbk]
      | false =>
        simp only [Bool.false_eq_true, if_false]
        rw [ih, lookup_cons_ne k k1 v1 rest hbk]

theorem lookup_hmInsert_self (k v : String) (m : List (String × String)) :
    (hmInsert k v m).lookup k = some v := by
  simp [hmInsert, List.lookup]

theorem lookup_hmInsert_ne (k k2 v : String) (m : List (String × String))
    (h : k ≠ k2) :
    (hmInsert k2 v m).lookup k = m.lookup k := by
  have hkk : (k == k2) = false := beq_eq_false_iff_ne.mpr h
  unfold hmInsert
  rw [lookup_cons_ne k k2 v _ hkk]
  exact lookup_filter_of_keeps_key k _ m (fun v2 => by simp [h])

theorem optInsert_none {A : Type} (k : String) (render : A → String)
    (m : List (String × String)) : optInsert k render none m = m := rfl

theorem optInsert_some {A : Type} (k : String) (render : A → String) (a : A)
    (m : List (String × String)) :
    optInsert k render (some a) m = hmInsert k (render a) m := rfl

theorem lookup_optInsert_ne {A : Type} (k k2 : String) (render : A → String)
    (arg : Option A) (m : List (String × String)) (h : k ≠ k2) :
    (optInsert k2 render arg m).lookup k = m.lookup k := by
  cases arg with
  | none => rfl
  | some a => exact lookup_hmInsert_ne k k2 (render a) m h

/-- Claim C4 counterexample: the caller-facing layer performs no p-value
range normalization — with only `p_lower` supplied, the emitted parameter
map carries `p_lower` but no `p_upper` sentinel. -/
theorem pvalue_one_sided_counterexample :
    ((gwas_get_associations_params none none none (some "0.5") none).lookup
        "p_lower" = some "0.5")
    ∧ ((gwas_get_associations_params none none none (some "0.5") none).lookup
        "p_upper" = none) := by
  constructor <;> decide

/-- Claim C4 (amended): the caller-facing layer passes one-sided p-value
bounds through without defaulting: in the parameter maps built by
`gwas_get_associations` and `gwas_get_chromosome_associations`, `p_lower`
appears exactly when the `p_lower` argument is supplied and `p_upper`
exactly when `p_upper` is supplied — a one-sided range stays one-sided. -/
theorem pvalue_bounds_not_normalized (start size : Option Int)
    (reveal p_lower p_upper : Option String) (bp_lower bp_upper : Option Int)
    (study_accession trait_name : Option String) :
    (((gwas_get_associations_params start size reveal p_lower p_upper).lookup
        "p_lower").isSome = p_lower.isSome)
    ∧ (((gwas_get_associations_params start size reveal p_lower p_upper).lookup
        "p_upper").isSome = p_upper.isSome)
    ∧ (((gwas_get_chromosome_associations_params start size reveal p_lower
        p_upper bp_lower bp_upper study_accession trait_name).lookup
        "p_lower").isSome = p_lower.isSome)
    ∧ (((gwas_get_chromosome_associations_params start size reveal p_lower
        p_upper bp_lower bp_upper study_accession trait_name).lookup
        "p_upper").isSome = p_upper.isSome) := by
  refine ⟨?_, ?_, ?_, ?_⟩
  · unfold gwas_get_associations_params
    rw [lookup_optInsert_ne "p_lower" "p_upper" id p_upper _ (by decide)]
    cases p_lower with
    | none =>
      rw [optInsert_none,
        lookup_optInsert_ne "p_lower" "reveal" id reveal _ (by decide),
        lookup_optInsert_ne "p_lower" "size" toString size _ (by decide),
        lookup_optInsert_ne "p_lower" "start" toString start _ (by decide)]
      rfl
    | some p =>
      rw [optInsert_some, lookup_hmInsert_self]
      rfl
  · unfold gwas_get_associations_params
    cases p_upper with
    | none =>
      rw [optInsert_none,
        lookup_optInsert_ne "p_upper" "p_lower" id p_lower _ (by decide),
        lookup_optInsert_ne "p_upper" "reveal" id reveal _ (by decide),
        lookup_optInsert_ne "p_upper" "size" toString size _ (by decide),
        lookup_optInsert_ne "p_upper" "start" toString start _ (by decide)]
      rfl
    | some p =>
      rw [optInsert_some, lookup_hmInsert_self]
      rfl
  · unfold gwas_get_chromosome_associations_params
    rw [lookup_optInsert_ne "p_lower" "trait" id trait_name _ (by decide),
      lookup_optInsert_ne "p_lower" "study_accession" id study_accession _ (by decide),
      lookup_optInsert_ne "p_lower" "bp_upper" toString bp_upper _ (by decide),
      lookup_optInsert_ne "p_lower" "bp_lower" toString bp_lower _ (by decide),
      lookup_optInsert_ne "p_lower" "p_upper" id p_upper _ (by decide)]
    cases p_lower with
    | none =>
      rw [optInsert_none,
        lookup_optInsert_ne "p_lower" "reveal" id reveal _ (by decide),
        lookup_optInsert_ne "p_lower" "size" toString size _ (by decide),
        lookup_optInsert_ne "p_lower" "start" toString start _ (by decide)]
      rfl
    | some p =>
      rw [optInsert_some, lookup_hmInsert_self]
      rfl
  · unfold gwas_get_chromosome_associations_params
    rw [lookup_optInsert_ne "p_upper" "trait" id trait_name _ (by decide),
      lookup_optInsert_ne "p_upper" "study_accession" id study_accession _ (by decide),
      lookup_optInsert_ne "p_upper" "bp_upper" toString bp_upper _ (by decide),
      lookup_optInsert_ne "p_upper" "bp_lower" toString bp_lower _ (by decide)]
    cases p_upper with
    | none =>
      rw [optInsert_none,
        lookup_optInsert_ne "p_upper" "p_lower" id p_lower _ (by decide),
        lookup_optInsert_ne "p_upper" "reveal" id reveal _ (by decide),
        lookup_optInsert_ne "p_upper" "size" toString size _ (by decide),
        lookup_optInsert_ne "p_upper" "start" toString start _ (by decide)]
      rfl
    | some p =>
      rw [optInsert_some, lookup_hmInsert_self]
      rfl

/-- Claim C9: client construction is infallible — `GwasClient::new` and
`GwasClient::with_base_url` return `Ok` for every input, so the
`Error creating client` branch of the exported boundary functions is
unreachable and `gwas_client_new` always reports success. -/
theorem client_construction_infallible :
    (∀ c : Client, (GwasClient.new c).isOk = true)
    ∧ (∀ (c : Client) (u : String), (GwasClient.with_base_url c u).isOk = true)
    ∧ (∀ c : Client, gwas_client_new c = "GWAS client created successfully") :=
  ⟨fun _ => rfl, fun _ _ => rfl, fun _ => rfl⟩

/-- Claim C3 counterexample: a delivered response with status 404 and
content-type `text/html` whose body decodes is accepted —
`get_chromosome` returns `Ok`, with no `HttpError` and no
`UnexpectedContentType`. -/
theorem no_response_validation_counterexample :
    GwasClient.get_chromosome
        ⟨⟨fun _ => Except.ok ⟨404, some "text/html",
            Json.obj [("chromosome", Json.str "1")]⟩,
          fun _ => Except.error "unused"⟩, "http://h"⟩ "1"
      = Except.ok ⟨"1", none⟩ := rfl

/-- Claim C3 (amended): the Resource Client operations perform no response
validation at all: whenever the transport delivers a response, the body is
decoded directly — the status code and the content-type header are never
inspected, so neither a non-success status nor a non-JSON content type
fails the operation; only decoding can fail. -/
theorem no_response_validation (g : GwasClient)
    (params : List (String × String)) (chrom : String) (rA rC : JsonResponse)
    (hA : g.client.json (build_url g.base_url "/associations" params)
        = Except.ok rA)
    (hC : g.client.json (build_url g.base_url ("/chromosomes/" ++ chrom) [])
        = Except.ok rC) :
    g.get_associations params = decodeHal decodeAssocMap rA.body
    ∧ g.get_chromosome chrom = decodeChromosome rC.body := by
  constructor
  · unfold GwasClient.get_associations
    rw [hA]
  · unfold GwasClient.get_chromosome
    rw [hC]

/-- Claim C3 witness: a transport that always delivers status 404 with
content-type `text/html` and body `{}`; both cited operations succeed and
return the decoded body. -/
theorem no_response_validation_witness :
    (sample404Client.client.json (build_url "http://h" "/associations" [])
      = Except.ok ⟨404, some "text/html", Json.obj []⟩)
    ∧ (sample404Client.client.json
        (build_url "http://h" ("/chromosomes/" ++ "1") [])
      = Except.ok ⟨404, some "text/html", Json.obj []⟩)
    ∧ (sample404Client.get_associations []
        = decodeHal decodeAssocMap (Json.obj [])
      ∧ sample404Client.get_chromosome "1" = decodeChromosome (Json.obj [])) :=
  ⟨rfl, rfl,
    no_response_validation sample404Client [] "1"
      ⟨404, some "text/html", Json.obj []⟩
      ⟨404, some "text/html", Json.obj []⟩ rfl rfl⟩

/-- Claim C10: whenever the transport delivers any HTTP response for
`file_url` — whatever its status code — `download_summary_stats_file`
creates the missing parent directory of `output_path`, creates or
truncates the file there, writes the delivered body to it, and returns
`Ok` of exactly the `output_path` it was given. -/
theorem download_writes_delivered_body (g : GwasClient) (url path : String)
    (w : World) (resp : ByteResponse)
    (h : g.client.bytes url = Except.ok resp) :
    ∃ w2 : World,
      g.download_summary_stats_file url path w = (Except.ok path, w2)
      ∧ w2.fs.files.lookup path = some resp.body
      ∧ (∀ parent, pathParent path = some parent → parent ≠ "" →
          parent ∈ w2.fs.dirs)
      ∧ w2.requests = w.requests ++ [url] := by
  unfold GwasClient.download_summary_stats_file
  rw [h]
  cases hp : pathParent path with
  | none =>
    refine ⟨_, rfl, ?_, ?_, rfl⟩
    · simp [writeFile, List.lookup]
    · intro parent hpar hne
      exact Option.noConfusion hpar
  | some parent =>
    refine ⟨_, rfl, ?_, ?_, rfl⟩
    · simp [writeFile, List.lookup]
    · intro q hq hne
      injection hq with hq
      subst hq
      simp [writeFile, createDirAll, hne]

/-- Claim C10 witness: a delivered response (status 200, body `[7, 8]`)
for the destination `out/d/f.gz` on an empty filesystem. -/
theorem download_writes_delivered_body_witness :
    (sampleDownloadClient.client.bytes "http://h/f" = Except.ok ⟨200, [7, 8]⟩)
    ∧ (∃ w2 : World,
        sampleDownloadClient.download_summary_stats_file "http://h/f"
          "out/d/f.gz" emptyWorld = (Except.ok "out/d/f.gz", w2)
        ∧ w2.fs.files.lookup "out/d/f.gz"
          = some (⟨200, [7, 8]⟩ : ByteResponse).body
        ∧ (∀ parent, pathParent "out/d/f.gz" = some parent → parent ≠ "" →
            parent ∈ w2.fs.dirs)
        ∧ w2.requests = emptyWorld.requests ++ ["http://h/f"]) :=
  ⟨rfl, download_writes_delivered_body sampleDownloadClient "http://h/f"
    "out/d/f.gz" emptyWorld ⟨200, [7, 8]⟩ rfl⟩

/-- Claim C1 (code evidence): a batch task whose URL yields a delivered
HTTP 404 response is counted as a success, its body (here the bytes of
`"404"`) is written to the destination file, and the report carries no
failure message — the code never inspects the status code, so no failure
message containing `404` can be produced for a delivered response. -/
theorem http_404_counted_as_success :
    gwas_download_summary_stats_files
        ⟨fun _ => Except.error "unused", fun _ => Except.ok ⟨404, [52, 48, 52]⟩⟩
        ["http://files/x.gz"] ["out/x.gz"] (some 1) emptyWorld
      = ("Downloaded 1 of 1 files successfully.\n",
          ⟨⟨["out"], [("out/x.gz", [52, 48, 52])]⟩, ["http://files/x.gz"]⟩) := by
  rfl

/-- Claim C2 (code evidence): the `max_concurrent` argument of
`gwas_download_summary_stats_files` is bound (defaulted to 4) and never
used — the batch's observable behaviour is entirely independent of it, so
the worker pool is not sized to the caller's value (the rayon pipeline
runs on the global thread pool). -/
theorem max_concurrent_unused (net : Client)
    (file_urls output_paths : List String) (k1 k2 : Option Nat) (w : World) :
    gwas_download_summary_stats_files net file_urls output_paths k1 w
      = gwas_download_summary_stats_files net file_urls output_paths k2 w := rfl

/-- Claim C5: with equal-length inputs the batch runs every task to
completion — one result per task, and the request log grows by exactly
the input URLs, so no task is skipped or cancelled by another's failure —
and the report's success count plus its failure-message count equals N. -/
theorem batch_report_accounts_for_every_task (net : Client)
    (file_urls output_paths : List String) (k : Option Nat) (w : World)
    (h : file_urls.length = output_paths.length) :
    countOk (batchOutcome net file_urls output_paths w).1
        + (errorMessages (batchOutcome net file_urls output_paths w).1).length
      = file_urls.length
    ∧ (batchOutcome net file_urls output_paths w).1.length = file_urls.length
    ∧ (batchOutcome net file_urls output_paths w).2.requests
      = w.requests ++ file_urls
    ∧ gwas_download_summary_stats_files net file_urls output_paths k w
      = ("Downloaded "
          ++ toString (countOk (batchOutcome net file_urls output_paths w).1)
          ++ " of " ++ toString file_urls.length ++ " files successfully.\n"
          ++ joinLines (errorMessages (batchOutcome net file_urls output_paths w).1),
        (batchOutcome net file_urls output_paths w).2) := by
  have hz : (file_urls.zip output_paths).length = file_urls.length := by
    rw [List.length_zip, h, Nat.min_self]
  refine ⟨?_, ?_, ?_, ?_⟩
  · rw [countOk_add_errorMessages]
    unfold batchOutcome
    rw [runTasks_length, hz]
  · unfold batchOutcome
    rw [runTasks_length, hz]
  · unfold batchOutcome
    rw [runTasks_requests]
    congr 1
    exact List.map_fst_zip file_urls output_paths (le_of_eq h)
  · unfold gwas_download_summary_stats_files
    rw [if_neg (fun hne => hne h)]
    rfl

/-- Claim C5 witness: a two-task batch, one delivered response and one
transport failure. -/
theorem batch_report_accounts_witness :
    (["http://ok", "http://bad"] : List String).length
        = (["d/f1", "d/f2"] : List String).length
    ∧ (countOk (batchOutcome sampleNet ["http://ok", "http://bad"]
            ["d/f1", "d/f2"] emptyWorld).1
          + (errorMessages (batchOutcome sampleNet ["http://ok", "http://bad"]
            ["d/f1", "d/f2"] emptyWorld).1).length
        = (["http://ok", "http://bad"] : List String).length
      ∧ (batchOutcome sampleNet ["http://ok", "http://bad"]
            ["d/f1", "d/f2"] emptyWorld).1.length
        = (["http://ok", "http://bad"] : List String).length
      ∧ (batchOutcome sampleNet ["http://ok", "http://bad"]
            ["d/f1", "d/f2"] emptyWorld).2.requests
        = emptyWorld.requests ++ ["http://ok", "http://bad"]
      ∧ gwas_download_summary_stats_files sampleNet
            ["http://ok", "http://bad"] ["d/f1", "d/f2"] (some 2) emptyWorld
        = ("Downloaded "
            ++ toString (countOk (batchOutcome sampleNet
                ["http://ok", "http://bad"] ["d/f1", "d/f2"] emptyWorld).1)
            ++ " of "
            ++ toString (["http://ok", "http://bad"] : List String).length
            ++ " files successfully.\n"
            ++ joinLines (errorMessages (batchOutcome sampleNet
                ["http://ok", "http://bad"] ["d/f1", "d/f2"] emptyWorld).1),
          (batchOutcome sampleNet ["http://ok", "http://bad"]
            ["d/f1", "d/f2"] emptyWorld).2)) :=
  ⟨rfl, batch_report_accounts_for_every_task sampleNet
    ["http://ok", "http://bad"] ["d/f1", "d/f2"] (some 2) emptyWorld rfl⟩

/-- Claim C6: a batch call whose URL and path sequences differ in length
fails immediately with the length-mismatch error and performs no work at
all: the returned world is the input world — no HTTP request logged, no
directory created, no file written. -/
theorem length_mismatch_rejected_before_work (net : Client)
    (file_urls output_paths : List String) (k : Option Nat) (w : World)
    (h : file_urls.length ≠ output_paths.length) :
    gwas_download_summary_stats_files net file_urls output_paths k w
      = ("Error: file_urls and output_paths must have the same length.", w) := by
  unfold gwas_download_summary_stats_files
  rw [if_pos h]

/-- Claim C6 witness: three URLs against two paths. -/
theorem length_mismatch_rejected_witness :
    (["u1", "u2", "u3"] : List String).length ≠ (["p1", "p2"] : List String).length
    ∧ gwas_download_summary_stats_files
        ⟨fun _ => Except.error "x", fun _ => Except.error "x"⟩
        ["u1", "u2", "u3"] ["p1", "p2"] none emptyWorld
      = ("Error: file_urls and output_paths must have the same length.",
          emptyWorld) :=
  ⟨by decide,
    length_mismatch_rejected_before_work
      ⟨fun _ => Except.error "x", fun _ => Except.error "x"⟩
      ["u1", "u2", "u3"] ["p1", "p2"] none emptyWorld (by decide)⟩
